import Mathlib

/-!
Shallow embedding of the signal-generation and order/portfolio-accounting
pipeline of the ai-trading-pro backend.

Python floats are modelled as exact rationals (the source performs only
field arithmetic on them); ORM rows become explicit records, session
mutation becomes explicit state passing (a function returns the state of
the session after the call), and the market-data lookup that the service
performs against the deployment engine's cache is passed in as the
resolved current price.  Fallible paths return a result label next to the
post-state.
-/

/-- Order side, the `side` string of the source normalised by `.lower()`. -/
inductive Side
  | buy
  | sell
  deriving Repr, DecidableEq

namespace TradeExecutionService

/-- Mirrors `src/models/trading.py` class `Position`: the fields read and
written by `TradeExecutionService.execute_market_order`. -/
structure Position where
  symbol : String
  quantity : ℚ
  average_price : ℚ
  current_price : ℚ
  is_active : Bool
  deriving Repr, DecidableEq

/-- Mirrors `src/models/trading.py` class `Portfolio` as used by the
execution service.  `balance` is the source's compatibility alias for
`cash_balance`; `realized_pnl` is the portfolio column of that name
(`execute_market_order` never assigns to it). -/
structure Portfolio where
  balance : ℚ
  total_value : ℚ
  realized_pnl : ℚ
  positions : List Position
  deriving Repr, DecidableEq

/-- Result labels of `execute_market_order`: the `success` dict, and the
three rejection messages `'Insufficient funds'`, `'Insufficient position
size'` and `'No position found to sell'`. -/
inductive OrderResult
  | filled
  | insufficientFunds
  | insufficientPosition
  | noPositionFound
  deriving Repr, DecidableEq

/-- The predicate of `Position.query.filter_by(portfolio_id=..., symbol=symbol,
is_active=True)`. -/
def matchesActive (pos : Position) (symbol : String) : Bool :=
  pos.is_active && pos.symbol == symbol

/-- The `.first()` call on that query: first active position for the symbol. -/
def findActive (ps : List Position) (symbol : String) : Option Position :=
  ps.find? (fun pos => matchesActive pos symbol)

/-- In-place ORM mutation of the row returned by the query: rewrite the first
active position for the symbol, leaving the rest of the list unchanged. -/
def updateFirstActive (f : Position → Position) : List Position → String → List Position
  | [], _ => []
  | pos :: rest, symbol =>
    if matchesActive pos symbol then f pos :: rest
    else pos :: updateFirstActive f rest symbol

/-- Lines 89-96 of `trade_execution_service.py`: average up an existing
position on a buy (`total_value / total_quantity` cost basis). -/
def buyUpdate (quantity current_price : ℚ) (pos : Position) : Position :=
  let total_value := pos.quantity * pos.average_price + quantity * current_price
  let total_quantity := pos.quantity + quantity
  { pos with
      average_price := total_value / total_quantity
      quantity := total_quantity
      current_price := current_price }

/-- Lines 120-128: reduce a position on a sell and deactivate it when the
remaining quantity is `<= 0`. -/
def sellUpdate (quantity current_price : ℚ) (pos : Position) : Position :=
  let remaining := pos.quantity - quantity
  { pos with
      quantity := remaining
      current_price := current_price
      is_active := if remaining ≤ 0 then false else pos.is_active }

/-- The new row created on a buy with no open position (lines 98-107). -/
def newPosition (symbol : String) (quantity current_price : ℚ) : Position :=
  { symbol := symbol
    quantity := quantity
    average_price := current_price
    current_price := current_price
    is_active := true }

/-- Market value of the active positions, the loop of
`_update_portfolio_value` (lines 303-312). -/
def investedValue (ps : List Position) : ℚ :=
  ((ps.filter (fun pos => pos.is_active)).map
    (fun pos => pos.quantity * pos.current_price)).sum

/-- `_update_portfolio_value`: `total_value = balance + Σ qty*current_price`
over active positions. -/
def updatePortfolioValue (pf : Portfolio) : Portfolio :=
  { pf with total_value := pf.balance + investedValue pf.positions }

/-- `TradeExecutionService.execute_market_order` (lines 25-150).  The
market-data lookup for `symbol` is passed in as `current_price` (the
`'Market data not available'` early return is the case where that lookup
fails and nothing below runs).  The returned portfolio is the state of the
ORM session after the call: the source only rolls the session back on a
raised exception, not on the rejection returns, so the `balance` credit that
the sell branch performs before the position checks (line 111) survives a
rejection. -/
def execute_market_order (pf : Portfolio) (symbol : String) (side : Side)
    (quantity current_price : ℚ) : OrderResult × Portfolio :=
  let order_value := quantity * current_price
  match side with
  | .buy =>
    if pf.balance < order_value then (.insufficientFunds, pf)
    else
      let positions1 :=
        match findActive pf.positions symbol with
        | some _ => updateFirstActive (buyUpdate quantity current_price) pf.positions symbol
        | none => pf.positions ++ [newPosition symbol quantity current_price]
      let pf1 : Portfolio :=
        { pf with balance := pf.balance - order_value, positions := positions1 }
      (.filled, updatePortfolioValue pf1)
  | .sell =>
    let pf1 : Portfolio := { pf with balance := pf.balance + order_value }
    match findActive pf.positions symbol with
    | none => (.noPositionFound, pf1)
    | some pos =>
      if quantity ≤ pos.quantity then
        let pf2 : Portfolio :=
          { pf1 with
              positions := updateFirstActive (sellUpdate quantity current_price) pf.positions symbol }
        (.filled, updatePortfolioValue pf2)
      else (.insufficientPosition, pf1)

/-- Quantity of the first active position for a symbol (0 when none). -/
def qtyOf (pf : Portfolio) (symbol : String) : ℚ :=
  ((findActive pf.positions symbol).map (fun pos => pos.quantity)).getD 0

/-- Average cost of the first active position for a symbol (0 when none). -/
def avgOf (pf : Portfolio) (symbol : String) : ℚ :=
  ((findActive pf.positions symbol).map (fun pos => pos.average_price)).getD 0

/-- Whether an active position for the symbol is open. -/
def hasActive (pf : Portfolio) (symbol : String) : Bool :=
  (findActive pf.positions symbol).isSome

/-- Number of active positions for a symbol; reachable portfolios keep this
at most 1 (buys only ever create a position when none is active). -/
def countActive (ps : List Position) (symbol : String) : ℕ :=
  (ps.filter (fun pos => matchesActive pos symbol)).length

/-- Fold a list of buy orders `(symbol, quantity, current_price)` through the
execution service, keeping the post-state of each call. -/
def runBuys (pf : Portfolio) : List (String × ℚ × ℚ) → Portfolio
  | [] => pf
  | (symbol, quantity, price) :: rest =>
    runBuys (execute_market_order pf symbol .buy quantity price).2 rest

/-- A fresh portfolio with cash 10000 and no positions (the §8 scenario
start state of the spec). -/
def pfEmpty10000 : Portfolio :=
  { balance := 10000, total_value := 10000, realized_pnl := 0, positions := [] }

/-- Portfolio holding 5 AAPL, used as the over-sell rejection input. -/
def pfAAPL5 : Portfolio :=
  { balance := 10000
    total_value := 10500
    realized_pnl := 0
    positions := [{ symbol := "AAPL", quantity := 5, average_price := 100,
                    current_price := 100, is_active := true }] }

/-- The §8 scenario state after the two buys: cash 7800, 20 units of `"X"`
at average cost 110 (current price 120 after the second buy). -/
def pfStage2 : Portfolio :=
  { balance := 7800
    total_value := 10200
    realized_pnl := 0
    positions := [{ symbol := "X", quantity := 20, average_price := 110,
                    current_price := 120, is_active := true }] }

end TradeExecutionService

namespace AITradingEngine

/-- Mirrors `src/models/trading.py` class `Position` as used by
`ai_trading_engine._should_execute_trade` / `_execute_trade` (positions are
keyed by `asset_id` there, with an `is_open` flag). -/
structure AIPosition where
  asset_id : ℕ
  quantity : ℚ
  entry_price : ℚ
  is_open : Bool
  deriving Repr, DecidableEq

/-- Portfolio fields read and written by the AI engine's automated path. -/
structure AIPortfolio where
  cash_balance : ℚ
  invested_value : ℚ
  total_value : ℚ
  positions : List AIPosition
  deriving Repr, DecidableEq

/-- Mirrors the `TradingSettings` row consulted by `_should_execute_trade`
(`max_position_size` is the fraction of total value committed per trade). -/
structure TradingSettings where
  min_confidence_threshold : ℚ
  max_open_positions : ℕ
  max_position_size : ℚ
  deriving Repr, DecidableEq

/-- The fields of an `opportunity` dict consumed by the automated path. -/
structure Opportunity where
  asset_id : ℕ
  confidence : ℚ
  current_price : ℚ
  deriving Repr, DecidableEq

/-- Which risk check of `_should_execute_trade` failed, in the source's
check order (the source returns a bare `False` at the first failing
check; this labels that first failing check). -/
inductive RiskCheckFailure
  | confidenceTooLow
  | existingPosition
  | maxOpenPositions
  | insufficientCash
  | dailyLimit
  deriving Repr, DecidableEq

/-- The existing-position query of `_should_execute_trade`:
`Position.query.filter_by(portfolio_id=..., asset_id=..., is_open=True).first()`. -/
def findOpenByAsset (ps : List AIPosition) (asset_id : ℕ) : Option AIPosition :=
  ps.find? (fun pos => pos.is_open && pos.asset_id == asset_id)

/-- The open-position count query of `_should_execute_trade`. -/
def openPositionsCount (ps : List AIPosition) : ℕ :=
  (ps.filter (fun pos => pos.is_open)).length

/-- `ai_trading_engine._should_execute_trade` (lines 538-574): the ordered
risk checks.  `can_trade_today` stands for the subscription's daily-limit
query, an external collaborator of this core. -/
def should_execute_trade (opp : Opportunity) (pf : AIPortfolio)
    (settings : TradingSettings) (can_trade_today : Bool) : Bool :=
  if opp.confidence < settings.min_confidence_threshold then false
  else if (findOpenByAsset pf.positions opp.asset_id).isSome then false
  else if settings.max_open_positions ≤ openPositionsCount pf.positions then false
  else if pf.cash_balance < pf.total_value * settings.max_position_size then false
  else if !can_trade_today then false
  else true

/-- The first failing check of `_should_execute_trade`, following the
source's chain order exactly; `none` when every check passes. -/
def risk_reject_reason (opp : Opportunity) (pf : AIPortfolio)
    (settings : TradingSettings) (can_trade_today : Bool) : Option RiskCheckFailure :=
  if opp.confidence < settings.min_confidence_threshold then some .confidenceTooLow
  else if (findOpenByAsset pf.positions opp.asset_id).isSome then some .existingPosition
  else if settings.max_open_positions ≤ openPositionsCount pf.positions then some .maxOpenPositions
  else if pf.cash_balance < pf.total_value * settings.max_position_size then some .insufficientCash
  else if !can_trade_today then some .dailyLimit
  else none

/-- The BUY branch of `ai_trading_engine._execute_trade` (lines 580-642) as
its effect on the portfolio: `position_value = total_value *
max_position_size`, `quantity = position_value / current_price`,
`commission = position_value * 0.001`, then
`cash_balance -= position_value + commission` and
`invested_value += position_value`, with a fresh open position row. -/
def execute_trade_buy (opp : Opportunity) (pf : AIPortfolio)
    (settings : TradingSettings) : AIPortfolio :=
  let position_value := pf.total_value * settings.max_position_size
  let quantity := position_value / opp.current_price
  let commission := position_value * 0.001
  { pf with
      cash_balance := pf.cash_balance - (position_value + commission)
      invested_value := pf.invested_value + position_value
      positions := pf.positions ++
        [{ asset_id := opp.asset_id, quantity := quantity,
           entry_price := opp.current_price, is_open := true }] }

/-- One automated BUY opportunity as processed by the engine's loop
(line 121-122): `_execute_trade` runs exactly when `_should_execute_trade`
admits the opportunity. -/
def automated_buy_step (opp : Opportunity) (pf : AIPortfolio)
    (settings : TradingSettings) (can_trade_today : Bool) : AIPortfolio :=
  if should_execute_trade opp pf settings can_trade_today then
    execute_trade_buy opp pf settings
  else pf

/-- Concrete automated-path input: the funds check passes with equality
(`position_value = cash_balance`), so the commission overdraws the cash. -/
def aiPf0 : AIPortfolio :=
  { cash_balance := 1000, invested_value := 0, total_value := 1000, positions := [] }

/-- Settings committing the whole portfolio value per trade. -/
def aiSettings0 : TradingSettings :=
  { min_confidence_threshold := 1/2, max_open_positions := 5, max_position_size := 1 }

/-- A high-confidence automated buy opportunity. -/
def aiOpp0 : Opportunity :=
  { asset_id := 1, confidence := 9/10, current_price := 100 }

/-- Risk-governor example state: one open position on asset 2. -/
def aiPfOnePos : AIPortfolio :=
  { cash_balance := 10000, invested_value := 1000, total_value := 11000,
    positions := [{ asset_id := 2, quantity := 10, entry_price := 100, is_open := true }] }

/-- Risk-governor example settings: `max_open_positions = 1`. -/
def aiSettingsMax1 : TradingSettings :=
  { min_confidence_threshold := 1/2, max_open_positions := 1, max_position_size := 1/10 }

end AITradingEngine

namespace RealTradingEngine

/-- Order types accepted by the demo execution path. -/
inductive OrderType
  | market
  | limit
  deriving Repr, DecidableEq

/-- Mirrors `real_trading_engine.TradeOrder` (the fields the demo path
reads); `price` is the optional limit price, read only on limit orders. -/
structure TradeOrder where
  symbol : String
  side : Side
  quantity : ℚ
  order_type : OrderType
  price : ℚ
  deriving Repr, DecidableEq

/-- Mirrors `real_trading_engine.TradingAccount` (balance and buying power). -/
structure TradingAccount where
  balance : ℚ
  buying_power : ℚ
  deriving Repr, DecidableEq

/-- The `market_prices` table of `_execute_demo_trade` (lines 226-236);
symbols are taken already normalised by the source's upper-casing and
suffix stripping. -/
def market_prices (symbol : String) : Option ℚ :=
  if symbol == "BTC" then some 42000
  else if symbol == "ETH" then some 2600
  else if symbol == "AAPL" then some 185
  else if symbol == "TSLA" then some 247
  else if symbol == "NVDA" then some 890
  else if symbol == "GOOGL" then some 144
  else if symbol == "META" then some 328
  else if symbol == "AMZN" then some 156
  else if symbol == "MSFT" then some 386
  else none

/-- `self.user_positions[user_id].get(symbol, 0.0)`: per-user position book
as an association list. -/
def positionQty (positions : List (String × ℚ)) (symbol : String) : ℚ :=
  ((positions.find? (fun entry => entry.1 == symbol)).map (fun entry => entry.2)).getD 0

/-- `self.user_positions[user_id][symbol] = q`: overwrite or insert. -/
def setPositionQty (positions : List (String × ℚ)) (symbol : String) (q : ℚ) :
    List (String × ℚ) :=
  match positions with
  | [] => [(symbol, q)]
  | entry :: rest =>
    if entry.1 == symbol then (symbol, q) :: rest
    else entry :: setPositionQty rest symbol q

/-- Result labels of `_execute_demo_trade`: a fill carrying the executed
price, or the three rejection messages. -/
inductive DemoTradeResult
  | success (executed_price : ℚ)
  | symbolNotSupported
  | insufficientBalance
  | insufficientPosition
  deriving Repr, DecidableEq

/-- The execution-price resolution of `_execute_demo_trade` line 245:
`price = order.price if order.order_type == 'limit' else market_prices[symbol]`
— a limit order's limit price is used unconditionally, with no comparison
against the market price. -/
def demoResolvedPrice (order : TradeOrder) (market_price : ℚ) : ℚ :=
  match order.order_type with
  | .limit => order.price
  | .market => market_price

/-- `real_trading_engine._execute_demo_trade` (lines 220-295). -/
def execute_demo_trade (account : TradingAccount) (positions : List (String × ℚ))
    (order : TradeOrder) : DemoTradeResult × TradingAccount × List (String × ℚ) :=
  match market_prices order.symbol with
  | none => (.symbolNotSupported, account, positions)
  | some market_price =>
    let price := demoResolvedPrice order market_price
    let total_cost := price * order.quantity
    match order.side with
    | .buy =>
      if account.balance < total_cost then (.insufficientBalance, account, positions)
      else
        let account1 : TradingAccount :=
          { balance := account.balance - total_cost
            buying_power := account.buying_power - total_cost }
        let current_position := positionQty positions order.symbol
        (.success price, account1,
          setPositionQty positions order.symbol (current_position + order.quantity))
    | .sell =>
      let current_position := positionQty positions order.symbol
      if current_position < order.quantity then (.insufficientPosition, account, positions)
      else
        let account1 : TradingAccount :=
          { balance := account.balance + total_cost
            buying_power := account.buying_power + total_cost }
        (.success price, account1,
          setPositionQty positions order.symbol (current_position - order.quantity))

/-- A demo account with cash 10000. -/
def demoAccount0 : TradingAccount := { balance := 10000, buying_power := 10000 }

/-- A limit buy for one AAPL share at limit price 1, far below the demo
market price of 185 (so the market price does not satisfy the limit). -/
def limitOrder0 : TradeOrder :=
  { symbol := "AAPL", side := .buy, quantity := 1, order_type := .limit, price := 1 }

end RealTradingEngine

namespace DeploymentTradingEngine

/-- Consecutive price changes `prices[i] - prices[i-1]` for `i = 1..len-1`
(the loop of `calculate_rsi`, lines 292-299). -/
def priceChanges : List ℚ → List ℚ
  | a :: b :: rest => (b - a) :: priceChanges (b :: rest)
  | _ => []

/-- The `gains` list of `calculate_rsi`: the positive changes, 0 elsewhere. -/
def rsiGains (prices : List ℚ) : List ℚ :=
  (priceChanges prices).map (fun change => if 0 < change then change else 0)

/-- The `losses` list of `calculate_rsi`: `abs(change)` for non-positive
changes, 0 elsewhere. -/
def rsiLosses (prices : List ℚ) : List ℚ :=
  (priceChanges prices).map (fun change => if 0 < change then 0 else abs change)

/-- Python's `l[-period:]` slice for `period ≤ len(l)`. -/
def lastWindow (l : List ℚ) (period : ℕ) : List ℚ :=
  l.drop (l.length - period)

/-- `avg_gain = sum(gains[-period:]) / period`. -/
def avg_gain (prices : List ℚ) (period : ℕ) : ℚ :=
  (lastWindow (rsiGains prices) period).sum / period

/-- `avg_loss = sum(losses[-period:]) / period`. -/
def avg_loss (prices : List ℚ) (period : ℕ) : ℚ :=
  (lastWindow (rsiLosses prices) period).sum / period

/-- `deployment_trading_engine.calculate_rsi` (lines 285-313). -/
def calculate_rsi (prices : List ℚ) (period : ℕ) : ℚ :=
  if prices.length < period + 1 then 50
  else if (rsiGains prices).length < period then 50
  else if avg_loss prices period = 0 then 100
  else
    let rs := avg_gain prices period / avg_loss prices period
    100 - 100 / (1 + rs)

/-- `deployment_trading_engine.calculate_bollinger_bands` (lines 343-360),
returned as `(upper, middle, lower)`.  The source's `variance ** 0.5` is the
real square root. -/
noncomputable def calculate_bollinger_bands (prices : List ℝ) (period : ℕ)
    (std_dev : ℝ) : ℝ × ℝ × ℝ :=
  if prices.length < period then
    let avg := prices.sum / (prices.length : ℝ)
    (avg * 1.02, avg, avg * 0.98)
  else
    let recent := prices.drop (prices.length - period)
    let sma := recent.sum / (period : ℝ)
    let variance := (recent.map (fun price => (price - sma) ^ 2)).sum / (period : ℝ)
    let std := Real.sqrt variance
    (sma + std * std_dev, sma, sma - std * std_dev)

/-- The fields of the deployment engine's `TradingSignal` dataclass that
`to_dict` serialises (timestamps are kept as opaque strings). -/
structure DTSignal where
  symbol : String
  asset_type : String
  signal : String
  confidence : ℚ
  entry_price : ℚ
  target_price : ℚ
  stop_loss : ℚ
  strategy : String
  risk_score : ℚ
  deriving Repr, DecidableEq

/-- `deployment_trading_engine.get_trading_signals` (lines 635-642): walk
`self.active_signals.items()` in insertion order (every stored value is a
`TradingSignal`, so the `isinstance` filter keeps all of them), and return
`signals[:10]`. -/
def get_trading_signals (active_signals : List (String × DTSignal)) : List DTSignal :=
  (active_signals.map (fun entry => entry.2)).take 10

end DeploymentTradingEngine

namespace AdvancedTradingEngine

/-- The indicator fields read by the three stock strategies of
`advanced_trading_engine.py` (`vol_ratio_5_20` carries the source's
volume-ratio field, mean of last 5 volumes over mean of last 20). -/
structure TechnicalIndicators where
  rsi : ℚ
  macd : ℚ
  macd_signal : ℚ
  bollinger_upper : ℚ
  bollinger_middle : ℚ
  bollinger_lower : ℚ
  ema_9 : ℚ
  ema_21 : ℚ
  ema_50 : ℚ
  ema_200 : ℚ
  adx : ℚ
  vol_ratio_5_20 : ℚ
  price_momentum_5d : ℚ
  deriving Repr, DecidableEq

/-- Emitted signal direction (`HOLD` never reaches a constructed signal). -/
inductive SignalType
  | buy
  | sell
  deriving Repr, DecidableEq

/-- The deterministic fields of `advanced_trading_engine.TradingSignal`
constructed by the stock strategies (timestamp and reasoning omitted). -/
structure StrategySignal where
  symbol : String
  signal : SignalType
  confidence : ℚ
  entry_price : ℚ
  target_price : ℚ
  stop_loss : ℚ
  strategy : String
  deriving Repr, DecidableEq

/-- `advanced_trading_engine.momentum_trading_strategy` (lines 329-379). -/
def momentum_trading_strategy (symbol : String) (ind : TechnicalIndicators)
    (current_price : ℚ) : Option StrategySignal :=
  if 2 < ind.price_momentum_5d ∧ 1.5 < ind.vol_ratio_5_20 ∧
      50 ≤ ind.rsi ∧ ind.rsi ≤ 70 ∧ ind.macd_signal < ind.macd ∧
      ind.ema_21 < current_price then
    some { symbol := symbol, signal := .buy, confidence := 0.8,
           entry_price := current_price, target_price := current_price * 1.08,
           stop_loss := current_price * 0.95, strategy := "momentum_trading" }
  else if 80 < ind.rsi ∨ current_price < ind.ema_9 ∨ ind.vol_ratio_5_20 < 1 then
    some { symbol := symbol, signal := .sell, confidence := 0.7,
           entry_price := current_price, target_price := current_price * 0.98,
           stop_loss := current_price * 1.02, strategy := "momentum_trading" }
  else none

/-- `advanced_trading_engine.mean_reversion_strategy` (lines 383-434).  The
leading guard is the `ZeroDivisionError` of the z-score divisor (caught by
the source's `except`, which returns `None`). -/
def mean_reversion_strategy (symbol : String) (ind : TechnicalIndicators)
    (current_price : ℚ) : Option StrategySignal :=
  if ind.bollinger_upper - ind.bollinger_lower = 0 then none
  else
    let z_score := (current_price - ind.bollinger_middle) /
      ((ind.bollinger_upper - ind.bollinger_lower) / 4)
    if current_price ≤ ind.bollinger_lower ∧ z_score < -2 ∧
        1.5 < ind.vol_ratio_5_20 ∧ ind.rsi < 30 then
      some { symbol := symbol, signal := .buy, confidence := 0.75,
             entry_price := current_price, target_price := ind.bollinger_middle,
             stop_loss := current_price * 0.95, strategy := "mean_reversion" }
    else if ind.bollinger_middle ≤ current_price ∨ 0 < z_score then
      some { symbol := symbol, signal := .sell, confidence := 0.6,
             entry_price := current_price, target_price := current_price * 1.02,
             stop_loss := current_price * 0.98, strategy := "mean_reversion" }
    else none

/-- `advanced_trading_engine.trend_following_strategy` (lines 437-487). -/
def trend_following_strategy (symbol : String) (ind : TechnicalIndicators)
    (current_price : ℚ) : Option StrategySignal :=
  let bullish_alignment := ind.ema_50 < current_price ∧ ind.ema_200 < ind.ema_50 ∧
    ind.ema_21 < ind.ema_9 ∧ ind.ema_50 < ind.ema_21
  if bullish_alignment ∧ 25 < ind.adx ∧ ind.macd_signal < ind.macd then
    some { symbol := symbol, signal := .buy, confidence := 0.85,
           entry_price := current_price, target_price := current_price * 1.15,
           stop_loss := current_price * 0.92, strategy := "trend_following" }
  else if current_price < ind.ema_50 ∨ ind.adx < 20 then
    some { symbol := symbol, signal := .sell, confidence := 0.7,
           entry_price := current_price, target_price := current_price * 0.98,
           stop_loss := current_price * 1.02, strategy := "trend_following" }
  else none

/-- One iteration of the arbitration loop of `generate_stock_signals`
(lines 941-947): keep the incumbent unless the candidate's confidence is
strictly greater than the best confidence so far (initially 0). -/
def arbitrateStep (best : Option StrategySignal × ℚ) (cand : Option StrategySignal) :
    Option StrategySignal × ℚ :=
  match cand with
  | some s => if best.2 < s.confidence then (some s, s.confidence) else best
  | none => best

/-- The `best_signal` selected by the arbitration loop over the candidate
list. -/
def best_signal (cands : List (Option StrategySignal)) : Option StrategySignal :=
  (cands.foldl arbitrateStep (none, 0)).1

/-- `advanced_trading_engine.generate_stock_signals` (lines 916-951): run
the three registered stock strategies in order and store the best signal
(the returned option is the stored signal; `none` stores nothing). -/
def generate_stock_signals (symbol : String) (ind : TechnicalIndicators)
    (current_price : ℚ) : Option StrategySignal :=
  best_signal
    [momentum_trading_strategy symbol ind current_price,
     mean_reversion_strategy symbol ind current_price,
     trend_following_strategy symbol ind current_price]

/-- The strategy-side tournament fold: first strict maximum of a nonempty
candidate list. -/
def pickBest (b c : StrategySignal) : StrategySignal :=
  if b.confidence < c.confidence then c else b

/-- Indicator snapshot on which momentum fires its 0.8-confidence buy and
mean reversion fires its 0.6-confidence sell, while trend following stays
silent. -/
def ind0 : TechnicalIndicators :=
  { rsi := 60, macd := 2, macd_signal := 1,
    bollinger_upper := 95, bollinger_middle := 90, bollinger_lower := 85,
    ema_9 := 96, ema_21 := 90, ema_50 := 80, ema_200 := 100,
    adx := 30, vol_ratio_5_20 := 2, price_momentum_5d := 3 }

/-- The momentum candidate emitted on `ind0` at price 100. -/
def momSignal0 : StrategySignal :=
  { symbol := "X", signal := .buy, confidence := 0.8, entry_price := 100,
    target_price := 108, stop_loss := 95, strategy := "momentum_trading" }

/-- The candidate signals actually produced for one stock symbol: the
emitted (non-`None`) outputs of the three registered strategies, in
registration order. -/
def stockCandidates (symbol : String) (ind : TechnicalIndicators)
    (current_price : ℚ) : List StrategySignal :=
  ([momentum_trading_strategy symbol ind current_price,
    mean_reversion_strategy symbol ind current_price,
    trend_following_strategy symbol ind current_price]).filterMap id

end AdvancedTradingEngine

namespace TradeExecutionService

theorem countActive_eq_zero_iff (ps : List Position) (s : String) :
    countActive ps s = 0 ↔ findActive ps s = none := by
  simp [countActive, findActive, List.length_eq_zero, List.filter_eq_nil_iff,
    List.find?_eq_none]

theorem findActive_append_none (ps l2 : List Position) (s : String)
    (h : findActive ps s = none) : findActive (ps ++ l2) s = findActive l2 s := by
  induction ps with
  | nil => simp [findActive]
  | cons head rest ih =>
    simp only [findActive, List.cons_append, List.find?_cons] at h ⊢
    cases hm : matchesActive head s with
    | false => simp only [hm] at h ⊢; exact ih h
    | true => simp [hm] at h

theorem findActive_update_matches (f : Position → Position) (ps : List Position)
    (s : String) (pos : Position) (hfind : findActive ps s = some pos)
    (hf : matchesActive (f pos) s = true) :
    findActive (updateFirstActive f ps s) s = some (f pos) := by
  induction ps with
  | nil => simp [findActive] at hfind
  | cons head rest ih =>
    simp only [findActive, List.find?_cons] at hfind
    cases hm : matchesActive head s with
    | false =>
      simp only [hm] at hfind
      have ih2 := ih hfind
      simp only [findActive] at ih2
      simp [updateFirstActive, hm, findActive, List.find?_cons, ih2]
    | true =>
      simp only [hm, Option.some.injEq] at hfind
      subst hfind
      simp [updateFirstActive, hm, findActive, List.find?_cons, hf]

theorem findActive_update_not_matches (f : Position → Position) (ps : List Position)
    (s : String) (pos : Position) (hfind : findActive ps s = some pos)
    (hf : matchesActive (f pos) s = false) (hcount : countActive ps s ≤ 1) :
    findActive (updateFirstActive f ps s) s = none := by
  induction ps with
  | nil => simp [findActive] at hfind
  | cons head rest ih =>
    simp only [findActive, List.find?_cons] at hfind
    cases hm : matchesActive head s with
    | false =>
      simp only [hm] at hfind
      have hcount2 : countActive rest s ≤ 1 := by
        simpa [countActive, List.filter_cons, hm] using hcount
      have ih2 := ih hfind hcount2
      simp only [findActive] at ih2
      simp [updateFirstActive, hm, findActive, List.find?_cons, ih2]
    | true =>
      simp only [hm, Option.some.injEq] at hfind
      subst hfind
      have hrest : countActive rest s = 0 := by
        simpa [countActive, List.filter_cons, hm] using hcount
      have hnone : findActive rest s = none := (countActive_eq_zero_iff rest s).mp hrest
      simp only [findActive] at hnone
      simp [updateFirstActive, hm, findActive, List.find?_cons, hf, hnone]

theorem countActive_update_eq (f : Position → Position) (ps : List Position)
    (s : String) (hpres : ∀ q : Position, matchesActive (f q) s = matchesActive q s) :
    countActive (updateFirstActive f ps s) s = countActive ps s := by
  induction ps with
  | nil => rfl
  | cons head rest ih =>
    cases hm : matchesActive head s with
    | false =>
      simp only [countActive, List.filter_cons] at ih ⊢
      simp [updateFirstActive, hm, List.filter_cons, ih]
    | true =>
      simp [updateFirstActive, hm, countActive, List.filter_cons, hpres head]

theorem matchesActive_buyUpdate (q p : ℚ) (pos : Position) (s : String) :
    matchesActive (buyUpdate q p pos) s = matchesActive pos s := rfl

theorem matchesActive_sellUpdate_open (q p : ℚ) (pos : Position) (s : String)
    (hrem : ¬ pos.quantity - q ≤ 0) :
    matchesActive (sellUpdate q p pos) s = matchesActive pos s := by
  simp [sellUpdate, matchesActive, hrem]

theorem matchesActive_sellUpdate_closed (q p : ℚ) (pos : Position) (s : String)
    (hrem : pos.quantity - q ≤ 0) :
    matchesActive (sellUpdate q p pos) s = false := by
  simp [sellUpdate, matchesActive, hrem]

theorem countActive_append (l1 l2 : List Position) (s : String) :
    countActive (l1 ++ l2) s = countActive l1 s + countActive l2 s := by
  simp [countActive, List.filter_append]

theorem findActive_matches (ps : List Position) (s : String) (pos : Position) :
    findActive ps s = some pos → matchesActive pos s = true := by
  induction ps with
  | nil => intro h; simp [findActive] at h
  | cons head rest ih =>
    intro h
    simp only [findActive, List.find?_cons] at h
    cases hm : matchesActive head s with
    | false => simp only [hm] at h; exact ih h
    | true =>
      simp only [hm, Option.some.injEq] at h
      subst h; exact hm

theorem matchesActive_newPosition (s : String) (q p : ℚ) :
    matchesActive (newPosition s q p) s = true := by
  simp [matchesActive, newPosition]

theorem updatePortfolioValue_balance (pf : Portfolio) :
    (updatePortfolioValue pf).balance = pf.balance := rfl

theorem updatePortfolioValue_realized (pf : Portfolio) :
    (updatePortfolioValue pf).realized_pnl = pf.realized_pnl := rfl

theorem updatePortfolioValue_positions (pf : Portfolio) :
    (updatePortfolioValue pf).positions = pf.positions := rfl

theorem execute_buy_reject (pf : Portfolio) (s : String) (q p : ℚ)
    (hfunds : pf.balance < q * p) :
    execute_market_order pf s .buy q p = (.insufficientFunds, pf) := by
  simp [execute_market_order, hfunds]

theorem execute_buy_spec (pf : Portfolio) (s : String) (q p : ℚ)
    (hfunds : ¬ pf.balance < q * p) :
    execute_market_order pf s .buy q p =
      (.filled, updatePortfolioValue
        { pf with
            balance := pf.balance - q * p
            positions :=
              match findActive pf.positions s with
              | some _ => updateFirstActive (buyUpdate q p) pf.positions s
              | none => pf.positions ++ [newPosition s q p] }) := by
  simp [execute_market_order, hfunds]

theorem execute_sell_found_spec (pf : Portfolio) (s : String) (q p : ℚ) (pos : Position)
    (hfind : findActive pf.positions s = some pos) (hqty : q ≤ pos.quantity) :
    execute_market_order pf s .sell q p =
      (.filled, updatePortfolioValue
        { pf with
            balance := pf.balance + q * p
            positions := updateFirstActive (sellUpdate q p) pf.positions s }) := by
  simp [execute_market_order, hfind, hqty]

theorem buy_into_existing (pf : Portfolio) (s : String) (q p : ℚ) (pos : Position)
    (hfind : findActive pf.positions s = some pos) (hfunds : ¬ pf.balance < q * p) :
    (execute_market_order pf s .buy q p).1 = .filled ∧
    (execute_market_order pf s .buy q p).2.balance = pf.balance - q * p ∧
    (execute_market_order pf s .buy q p).2.realized_pnl = pf.realized_pnl ∧
    findActive (execute_market_order pf s .buy q p).2.positions s =
      some (buyUpdate q p pos) ∧
    countActive (execute_market_order pf s .buy q p).2.positions s =
      countActive pf.positions s := by
  rw [execute_buy_spec pf s q p hfunds, hfind]
  have hpos : matchesActive pos s = true := findActive_matches pf.positions s pos hfind
  have hfmatch : matchesActive (buyUpdate q p pos) s = true := by
    rw [matchesActive_buyUpdate]; exact hpos
  refine ⟨rfl, rfl, rfl, ?_, ?_⟩
  · simpa [updatePortfolioValue] using
      findActive_update_matches (buyUpdate q p) pf.positions s pos hfind hfmatch
  · simpa [updatePortfolioValue] using
      countActive_update_eq (buyUpdate q p) pf.positions s
        (fun r => matchesActive_buyUpdate q p r s)

theorem buy_fresh (pf : Portfolio) (s : String) (q p : ℚ)
    (hfind : findActive pf.positions s = none) (hfunds : ¬ pf.balance < q * p) :
    (execute_market_order pf s .buy q p).1 = .filled ∧
    (execute_market_order pf s .buy q p).2.balance = pf.balance - q * p ∧
    (execute_market_order pf s .buy q p).2.realized_pnl = pf.realized_pnl ∧
    findActive (execute_market_order pf s .buy q p).2.positions s =
      some (newPosition s q p) ∧
    countActive (execute_market_order pf s .buy q p).2.positions s = 1 := by
  rw [execute_buy_spec pf s q p hfunds, hfind]
  have hcount0 : countActive pf.positions s = 0 :=
    (countActive_eq_zero_iff pf.positions s).mpr hfind
  refine ⟨rfl, rfl, rfl, ?_, ?_⟩
  · have happ := findActive_append_none pf.positions [newPosition s q p] s hfind
    have hsingle : findActive [newPosition s q p] s = some (newPosition s q p) := by
      simp [findActive, List.find?_cons, matchesActive_newPosition s q p]
    simpa [updatePortfolioValue] using happ.trans hsingle
  · have hone : countActive (pf.positions ++ [newPosition s q p]) s = 1 := by
      rw [countActive_append, hcount0]
      simp [countActive, List.filter_cons, matchesActive_newPosition s q p]
    simpa [updatePortfolioValue] using hone

/-- Buys that pass the funds check debit exactly the order value, so they
keep the cash balance non-negative; rejected buys leave the portfolio
untouched.  (The buy branch, unlike the sell branch, validates before it
mutates.) -/
theorem runBuys_balance_nonneg (orders : List (String × ℚ × ℚ)) (pf : Portfolio)
    (h : 0 ≤ pf.balance) : 0 ≤ (runBuys pf orders).balance := by
  induction orders generalizing pf with
  | nil => exact h
  | cons order rest ih =>
    obtain ⟨s, q, p⟩ := order
    by_cases hfunds : pf.balance < q * p
    · simpa [runBuys, execute_buy_reject pf s q p hfunds] using ih pf h
    · have hbal : (execute_market_order pf s .buy q p).2.balance = pf.balance - q * p := by
        rw [execute_buy_spec pf s q p hfunds]
        exact updatePortfolioValue_balance _
      refine ih _ ?_
      rw [hbal]
      linarith [not_lt.mp hfunds]

/-- C1.  The spec says a sell rejected for a missing or too-small position
leaves the Portfolio unmodified.  The code credits `order_value` to the
balance before it looks at the position (line 111) and does not roll the
session back on the rejection returns, so both rejection shapes leave the
balance credited by `quantity * price`: selling 10 at 100 against no
position, and against a 5-unit position, both get rejected yet move the
balance from 10000 to 11000 (positions and total_value stay unchanged). -/
theorem claim_C1_sell_rejection_credits_cash :
    ((execute_market_order pfEmpty10000 "AAPL" .sell 10 100).1 =
        OrderResult.noPositionFound ∧
      (execute_market_order pfEmpty10000 "AAPL" .sell 10 100).2.balance = 11000 ∧
      pfEmpty10000.balance = 10000 ∧
      (execute_market_order pfEmpty10000 "AAPL" .sell 10 100).2.positions =
        pfEmpty10000.positions ∧
      (execute_market_order pfEmpty10000 "AAPL" .sell 10 100).2.total_value =
        pfEmpty10000.total_value) ∧
    ((execute_market_order pfAAPL5 "AAPL" .sell 10 100).1 =
        OrderResult.insufficientPosition ∧
      (execute_market_order pfAAPL5 "AAPL" .sell 10 100).2.balance = 11000 ∧
      pfAAPL5.balance = 10000 ∧
      (execute_market_order pfAAPL5 "AAPL" .sell 10 100).2.positions =
        pfAAPL5.positions) := by
  norm_num [execute_market_order, findActive, pfEmpty10000, pfAAPL5,
    List.find?_cons, matchesActive]

/-- C3, counterexample.  In the §8 scenario (20 units of `"X"` at average
cost 110, cash 7800) the sell of 15 at 130 fills, credits cash to 9750 and
leaves 5 units, but the portfolio's `realized_pnl` stays 0 instead of
increasing by 15 × (130 − 110) = 300: `execute_market_order` never touches
the realized-P&L column. -/
theorem claim_C3_counterexample :
    (execute_market_order pfStage2 "X" .sell 15 130).1 = OrderResult.filled ∧
    (execute_market_order pfStage2 "X" .sell 15 130).2.balance = 9750 ∧
    qtyOf (execute_market_order pfStage2 "X" .sell 15 130).2 "X" = 5 ∧
    pfStage2.realized_pnl = 0 ∧
    (execute_market_order pfStage2 "X" .sell 15 130).2.realized_pnl ≠
      pfStage2.realized_pnl + 15 * (130 - 110) := by
  norm_num [execute_market_order, findActive, pfStage2, List.find?_cons,
    matchesActive, updatePortfolioValue, qtyOf, updateFirstActive, sellUpdate,
    investedValue]

/-- C3, amended.  A sell of `q` at price `p` against an open position of
sufficient quantity fills, credits `q * p` to the cash balance, decrements
the position's quantity by `q`, deactivates the position exactly when the
remaining quantity reaches 0 (or below), and leaves `realized_pnl`
unchanged — the service does not update realized P&L on a sell. -/
theorem claim_C3_sell_accounting (pf : Portfolio) (s : String) (q p : ℚ)
    (pos : Position) (hfind : findActive pf.positions s = some pos)
    (hqty : q ≤ pos.quantity) (hcount : countActive pf.positions s ≤ 1) :
    (execute_market_order pf s .sell q p).1 = OrderResult.filled ∧
    (execute_market_order pf s .sell q p).2.balance = pf.balance + q * p ∧
    (execute_market_order pf s .sell q p).2.realized_pnl = pf.realized_pnl ∧
    (0 < pos.quantity - q →
      qtyOf (execute_market_order pf s .sell q p).2 s = pos.quantity - q ∧
      hasActive (execute_market_order pf s .sell q p).2 s = true) ∧
    (pos.quantity - q ≤ 0 →
      hasActive (execute_market_order pf s .sell q p).2 s = false) := by
  rw [execute_sell_found_spec pf s q p pos hfind hqty]
  have hpos : matchesActive pos s = true := findActive_matches pf.positions s pos hfind
  refine ⟨rfl, rfl, rfl, ?_, ?_⟩
  · intro hrem
    have hnle : ¬ pos.quantity - q ≤ 0 := not_le.mpr hrem
    have hfmatch : matchesActive (sellUpdate q p pos) s = true := by
      rw [matchesActive_sellUpdate_open q p pos s hnle]; exact hpos
    have hfound :=
      findActive_update_matches (sellUpdate q p) pf.positions s pos hfind hfmatch
    constructor
    · simp [qtyOf, updatePortfolioValue, hfound, sellUpdate]
    · simp [hasActive, updatePortfolioValue, hfound]
  · intro hrem
    have hfmatch : matchesActive (sellUpdate q p pos) s = false :=
      matchesActive_sellUpdate_closed q p pos s hrem
    have hnone :=
      findActive_update_not_matches (sellUpdate q p) pf.positions s pos hfind
        hfmatch hcount
    simp [hasActive, updatePortfolioValue, hnone]

/-- Witness for `claim_C3_sell_accounting`: the §8 scenario sell (15 of 20
units at 130) instantiates every hypothesis and yields cash 9750,
position 5, unchanged realized P&L. -/
theorem claim_C3_sell_accounting_witness :
    (execute_market_order pfStage2 "X" .sell 15 130).1 = OrderResult.filled ∧
    (execute_market_order pfStage2 "X" .sell 15 130).2.balance = 9750 ∧
    (execute_market_order pfStage2 "X" .sell 15 130).2.realized_pnl = 0 ∧
    qtyOf (execute_market_order pfStage2 "X" .sell 15 130).2 "X" = 5 := by
  have h := claim_C3_sell_accounting pfStage2 "X" 15 130
    { symbol := "X", quantity := 20, average_price := 110,
      current_price := 120, is_active := true }
    (by decide) (by norm_num) (by decide)
  refine ⟨h.1, ?_, ?_, ?_⟩
  · rw [h.2.1]; norm_num [pfStage2]
  · rw [h.2.2.1]; rfl
  · have h5 := (h.2.2.2.1 (by norm_num)).1
    rw [h5]; norm_num

/-- C5.  A buy into an open position of `old_qty` at `old_avg` fills and
recomputes the cost basis as `(old_qty*old_avg + q*p)/(old_qty+q)` with the
quantity incremented by `q` (a buy with no open position creates one); and
two buys of `q1@p1`, `q2@p2` from no position leave the position at exactly
`(q1*p1 + q2*p2)/(q1+q2)` average cost and quantity `q1+q2`. -/
theorem claim_C5_average_cost :
    (∀ (pf : Portfolio) (s : String) (q p : ℚ) (pos : Position),
      findActive pf.positions s = some pos → ¬ pf.balance < q * p →
      (execute_market_order pf s .buy q p).1 = OrderResult.filled ∧
      avgOf (execute_market_order pf s .buy q p).2 s =
        (pos.quantity * pos.average_price + q * p) / (pos.quantity + q) ∧
      qtyOf (execute_market_order pf s .buy q p).2 s = pos.quantity + q) ∧
    (∀ (pf : Portfolio) (s : String) (q1 p1 q2 p2 : ℚ),
      findActive pf.positions s = none → ¬ pf.balance < q1 * p1 →
      ¬ pf.balance - q1 * p1 < q2 * p2 →
      avgOf (execute_market_order
          (execute_market_order pf s .buy q1 p1).2 s .buy q2 p2).2 s =
        (q1 * p1 + q2 * p2) / (q1 + q2) ∧
      qtyOf (execute_market_order
          (execute_market_order pf s .buy q1 p1).2 s .buy q2 p2).2 s = q1 + q2) := by
  constructor
  · intro pf s q p pos hfind hfunds
    obtain ⟨h1, hbal, hrpnl, hfound, hcnt⟩ := buy_into_existing pf s q p pos hfind hfunds
    exact ⟨h1, by simp [avgOf, hfound, buyUpdate],
      by simp [qtyOf, hfound, buyUpdate]⟩
  · intro pf s q1 p1 q2 p2 hfind hf1 hf2
    obtain ⟨h1, hbal, hrpnl, hfound, hcnt⟩ := buy_fresh pf s q1 p1 hfind hf1
    have hf2b : ¬ (execute_market_order pf s .buy q1 p1).2.balance < q2 * p2 := by
      rw [hbal]; exact hf2
    obtain ⟨h1b, hbalb, hrpnlb, hfoundb, hcntb⟩ :=
      buy_into_existing (execute_market_order pf s .buy q1 p1).2 s q2 p2
        (newPosition s q1 p1) hfound hf2b
    exact ⟨by simp [avgOf, hfoundb, buyUpdate, newPosition],
      by simp [qtyOf, hfoundb, buyUpdate, newPosition]⟩

/-- Witness for `claim_C5_average_cost`: buying 10 at 100 and 10 at 120
from cash 10000 and no position gives average cost 110 and quantity 20
(the §8 numbers). -/
theorem claim_C5_average_cost_witness :
    avgOf (execute_market_order
        (execute_market_order pfEmpty10000 "X" .buy 10 100).2 "X" .buy 10 120).2 "X" =
      110 ∧
    qtyOf (execute_market_order
        (execute_market_order pfEmpty10000 "X" .buy 10 100).2 "X" .buy 10 120).2 "X" =
      20 := by
  have h := claim_C5_average_cost.2 pfEmpty10000 "X" 10 100 10 120
    (by simp [findActive, pfEmpty10000]) (by norm_num [pfEmpty10000])
    (by norm_num [pfEmpty10000])
  exact ⟨by rw [h.1]; norm_num, by rw [h.2]; norm_num⟩

/-- C7.  A buy of `q` at `p` that passes the funds check, immediately
followed by a sell of the same `q` at the same `p`, fills both legs,
restores the original cash balance and the original (active-position)
quantity for the symbol, and leaves realized P&L unchanged. -/
theorem claim_C7_round_trip (pf : Portfolio) (s : String) (q p : ℚ)
    (hfunds : ¬ pf.balance < q * p) (hqty : 0 ≤ qtyOf pf s)
    (hcount : countActive pf.positions s ≤ 1) :
    (execute_market_order pf s .buy q p).1 = OrderResult.filled ∧
    (execute_market_order
      (execute_market_order pf s .buy q p).2 s .sell q p).1 = OrderResult.filled ∧
    (execute_market_order
      (execute_market_order pf s .buy q p).2 s .sell q p).2.balance = pf.balance ∧
    qtyOf (execute_market_order
      (execute_market_order pf s .buy q p).2 s .sell q p).2 s = qtyOf pf s ∧
    (execute_market_order
      (execute_market_order pf s .buy q p).2 s .sell q p).2.realized_pnl =
      pf.realized_pnl := by
  cases hfind : findActive pf.positions s with
  | none =>
    obtain ⟨h1, hbal, hrpnl, hfound, hcnt⟩ := buy_fresh pf s q p hfind hfunds
    have hq : q ≤ (newPosition s q p).quantity := by simp [newPosition]
    rw [execute_sell_found_spec (execute_market_order pf s .buy q p).2 s q p
      (newPosition s q p) hfound hq]
    have hrem : (newPosition s q p).quantity - q ≤ 0 := by simp [newPosition]
    have hfm := matchesActive_sellUpdate_closed q p (newPosition s q p) s hrem
    have hnone := findActive_update_not_matches (sellUpdate q p)
      (execute_market_order pf s .buy q p).2.positions s (newPosition s q p)
      hfound hfm (by simp [hcnt])
    refine ⟨h1, rfl, ?_, ?_, ?_⟩
    · simp only [updatePortfolioValue]
      rw [hbal]; ring
    · simp only [qtyOf, updatePortfolioValue] at hnone ⊢
      simp [hnone, qtyOf, hfind]
    · simp only [updatePortfolioValue]
      exact hrpnl
  | some pos =>
    have hposqty : qtyOf pf s = pos.quantity := by simp [qtyOf, hfind]
    have hq0 : 0 ≤ pos.quantity := by rw [← hposqty]; exact hqty
    obtain ⟨h1, hbal, hrpnl, hfound, hcnt⟩ := buy_into_existing pf s q p pos hfind hfunds
    have hq : q ≤ (buyUpdate q p pos).quantity := by
      simp only [buyUpdate]; linarith
    rw [execute_sell_found_spec (execute_market_order pf s .buy q p).2 s q p
      (buyUpdate q p pos) hfound hq]
    have hcnt1 : countActive (execute_market_order pf s .buy q p).2.positions s ≤ 1 := by
      rw [hcnt]; exact hcount
    refine ⟨h1, rfl, ?_, ?_, ?_⟩
    · simp only [updatePortfolioValue]
      rw [hbal]; ring
    · by_cases hzero : 0 < pos.quantity
      · have hnle : ¬ (buyUpdate q p pos).quantity - q ≤ 0 := by
          simp only [buyUpdate]; intro hcontra; linarith
        have hm1 : matchesActive (sellUpdate q p (buyUpdate q p pos)) s = true := by
          rw [matchesActive_sellUpdate_open q p (buyUpdate q p pos) s hnle,
            matchesActive_buyUpdate]
          exact findActive_matches pf.positions s pos hfind
        have hfound2 := findActive_update_matches (sellUpdate q p)
          (execute_market_order pf s .buy q p).2.positions s (buyUpdate q p pos)
          hfound hm1
        simp only [qtyOf, updatePortfolioValue] at hfound2 ⊢
        simp [hfound2, sellUpdate, buyUpdate, hposqty, hfind]
      · have hzeroeq : pos.quantity = 0 := le_antisymm (not_lt.mp hzero) hq0
        have hrem : (buyUpdate q p pos).quantity - q ≤ 0 := by
          simp [buyUpdate, hzeroeq]
        have hm0 := matchesActive_sellUpdate_closed q p (buyUpdate q p pos) s hrem
        have hnone := findActive_update_not_matches (sellUpdate q p)
          (execute_market_order pf s .buy q p).2.positions s (buyUpdate q p pos)
          hfound hm0 hcnt1
        simp only [qtyOf, updatePortfolioValue] at hnone ⊢
        simp [hnone, hposqty, hzeroeq, qtyOf, hfind]
    · simp only [updatePortfolioValue]
      exact hrpnl

/-- Witness for `claim_C7_round_trip`: buy 10 at 100 then sell 10 at 100
from cash 10000 and no position; the cash balance and position quantity
return to their initial values. -/
theorem claim_C7_round_trip_witness :
    (execute_market_order
      (execute_market_order pfEmpty10000 "X" .buy 10 100).2 "X" .sell 10 100).2.balance =
      pfEmpty10000.balance ∧
    qtyOf (execute_market_order
      (execute_market_order pfEmpty10000 "X" .buy 10 100).2 "X" .sell 10 100).2 "X" =
      qtyOf pfEmpty10000 "X" ∧
    (execute_market_order
      (execute_market_order pfEmpty10000 "X" .buy 10 100).2 "X" .sell 10 100).2.realized_pnl =
      pfEmpty10000.realized_pnl := by
  have h := claim_C7_round_trip pfEmpty10000 "X" 10 100
    (by norm_num [pfEmpty10000]) (by simp [qtyOf, findActive, pfEmpty10000])
    (by simp [countActive, pfEmpty10000])
  exact ⟨h.2.2.1, h.2.2.2.1, h.2.2.2.2⟩

end TradeExecutionService

namespace AITradingEngine

/-- C2.  The automated buy path of `ai_trading_engine` admits a trade when
`position_value ≤ cash_balance` (`_should_execute_trade`) but debits
`position_value + 0.1% commission` (`_execute_trade`), so a buy whose total
debited cost exceeds the cash balance is not rejected and drives
`cash_balance` negative: with cash 1000, total value 1000 and
`max_position_size = 1`, the admitted buy leaves `cash_balance = -1`. -/
theorem claim_C2_commission_overdraws_cash :
    0 ≤ aiPf0.cash_balance ∧
    aiPf0.total_value * aiSettings0.max_position_size ≤ aiPf0.cash_balance ∧
    should_execute_trade aiOpp0 aiPf0 aiSettings0 true = true ∧
    (automated_buy_step aiOpp0 aiPf0 aiSettings0 true).cash_balance < 0 := by
  refine ⟨by norm_num [aiPf0], by norm_num [aiPf0, aiSettings0], ?_, ?_⟩
  · norm_num [should_execute_trade, aiOpp0, aiPf0, aiSettings0, findOpenByAsset,
      openPositionsCount]
  · norm_num [automated_buy_step, should_execute_trade, execute_trade_buy,
      aiOpp0, aiPf0, aiSettings0, findOpenByAsset, openPositionsCount]

/-- C6.  The risk checks of `_should_execute_trade` run in the source's
order — confidence floor, then existing same-asset open position, then
open-position count against `max_open_positions` — the first failing check
is the one reported, and with `max_open_positions = 1` and one open
position a new automated buy on a different asset is rejected by the
max-open-positions check. -/
theorem claim_C6_risk_check_order :
    (∀ (opp : Opportunity) (pf : AIPortfolio) (st : TradingSettings) (ctt : Bool),
      should_execute_trade opp pf st ctt = true ↔
        risk_reject_reason opp pf st ctt = none) ∧
    (∀ (opp : Opportunity) (pf : AIPortfolio) (st : TradingSettings) (ctt : Bool),
      opp.confidence < st.min_confidence_threshold →
      risk_reject_reason opp pf st ctt = some RiskCheckFailure.confidenceTooLow ∧
      should_execute_trade opp pf st ctt = false) ∧
    (∀ (opp : Opportunity) (pf : AIPortfolio) (st : TradingSettings) (ctt : Bool),
      ¬ opp.confidence < st.min_confidence_threshold →
      (findOpenByAsset pf.positions opp.asset_id).isSome = true →
      risk_reject_reason opp pf st ctt = some RiskCheckFailure.existingPosition ∧
      should_execute_trade opp pf st ctt = false) ∧
    (∀ (opp : Opportunity) (pf : AIPortfolio) (st : TradingSettings) (ctt : Bool),
      ¬ opp.confidence < st.min_confidence_threshold →
      findOpenByAsset pf.positions opp.asset_id = none →
      st.max_open_positions ≤ openPositionsCount pf.positions →
      risk_reject_reason opp pf st ctt = some RiskCheckFailure.maxOpenPositions ∧
      should_execute_trade opp pf st ctt = false) ∧
    (∀ (opp : Opportunity) (pf : AIPortfolio) (st : TradingSettings) (ctt : Bool),
      st.max_open_positions = 1 →
      openPositionsCount pf.positions = 1 →
      findOpenByAsset pf.positions opp.asset_id = none →
      st.min_confidence_threshold ≤ opp.confidence →
      risk_reject_reason opp pf st ctt = some RiskCheckFailure.maxOpenPositions ∧
      should_execute_trade opp pf st ctt = false) := by
  refine ⟨?_, ?_, ?_, ?_, ?_⟩
  · intro opp pf st ctt
    simp only [should_execute_trade, risk_reject_reason]
    split_ifs <;> simp
  · intro opp pf st ctt h
    simp [should_execute_trade, risk_reject_reason, h]
  · intro opp pf st ctt h1 h2
    simp [should_execute_trade, risk_reject_reason, h1, h2]
  · intro opp pf st ctt h1 h2 h3
    simp [should_execute_trade, risk_reject_reason, h1, h2, h3]
  · intro opp pf st ctt hmax hcnt hfind hconf
    have h1 : ¬ opp.confidence < st.min_confidence_threshold := not_lt.mpr hconf
    simp [should_execute_trade, risk_reject_reason, h1, hfind, hmax, hcnt]

/-- Witness for `claim_C6_risk_check_order`: `max_open_positions = 1`, one
open position on asset 2, a 0.9-confidence automated buy on asset 1 against
a 0.5 confidence floor — rejected by the max-open-positions check. -/
theorem claim_C6_risk_check_order_witness :
    risk_reject_reason aiOpp0 aiPfOnePos aiSettingsMax1 true =
      some RiskCheckFailure.maxOpenPositions ∧
    should_execute_trade aiOpp0 aiPfOnePos aiSettingsMax1 true = false :=
  claim_C6_risk_check_order.2.2.2.2 aiOpp0 aiPfOnePos aiSettingsMax1 true
    rfl (by simp [openPositionsCount, aiPfOnePos])
    (by simp [findOpenByAsset, aiPfOnePos, aiOpp0, List.find?_cons])
    (by norm_num [aiSettingsMax1, aiOpp0])

end AITradingEngine

namespace RealTradingEngine

/-- C4, counterexample.  A limit buy of one AAPL at limit price 1 (demo
market price 185, which does not satisfy the limit for a buy) is not
rejected: `_execute_demo_trade` fills it at the limit price 1 and debits
the account — there is no limit-price check and no LimitNotReached
rejection in the code. -/
theorem claim_C4_counterexample :
    market_prices limitOrder0.symbol = some 185 ∧
    limitOrder0.order_type = OrderType.limit ∧
    ¬ (185 : ℚ) ≤ limitOrder0.price ∧
    (execute_demo_trade demoAccount0 [] limitOrder0).1 =
      DemoTradeResult.success limitOrder0.price ∧
    (execute_demo_trade demoAccount0 [] limitOrder0).2.1.balance = 9999 := by
  refine ⟨rfl, rfl, by norm_num [limitOrder0], ?_, ?_⟩ <;>
    (norm_num [execute_demo_trade, market_prices, limitOrder0, demoAccount0,
      demoResolvedPrice, positionQty, setPositionQty]; decide)

/-- C4, amended.  The demo engine resolves a limit order's execution price
to the limit price unconditionally — the market price is never compared to
the limit — and fills the order whenever the balance (buy) or position
(sell) suffices, for any relation between the market price and the limit. -/
theorem claim_C4_limit_fills_unconditionally (account : TradingAccount)
    (positions : List (String × ℚ)) (order : TradeOrder) (m : ℚ)
    (hlimit : order.order_type = OrderType.limit)
    (hsym : market_prices order.symbol = some m) :
    demoResolvedPrice order m = order.price ∧
    (order.side = Side.buy → ¬ account.balance < order.price * order.quantity →
      (execute_demo_trade account positions order).1 =
        DemoTradeResult.success order.price) ∧
    (order.side = Side.sell → ¬ positionQty positions order.symbol < order.quantity →
      (execute_demo_trade account positions order).1 =
        DemoTradeResult.success order.price) := by
  refine ⟨by simp [demoResolvedPrice, hlimit], ?_, ?_⟩
  · intro hside hfunds
    simp [execute_demo_trade, hsym, hside, demoResolvedPrice, hlimit, hfunds]
  · intro hside hpos
    simp [execute_demo_trade, hsym, hside, demoResolvedPrice, hlimit, hpos]

/-- Witness for `claim_C4_limit_fills_unconditionally`: the AAPL limit buy
at price 1 resolves to and fills at 1. -/
theorem claim_C4_limit_fills_unconditionally_witness :
    demoResolvedPrice limitOrder0 185 = 1 ∧
    (execute_demo_trade demoAccount0 [] limitOrder0).1 =
      DemoTradeResult.success 1 := by
  have h := claim_C4_limit_fills_unconditionally demoAccount0 [] limitOrder0 185
    rfl rfl
  have h2 := h.2.1 rfl (by norm_num [demoAccount0, limitOrder0])
  exact ⟨h.1.trans rfl, h2.trans rfl⟩

end RealTradingEngine

namespace DeploymentTradingEngine

theorem priceChanges_length (l : List ℚ) : (priceChanges l).length = l.length - 1 := by
  induction l with
  | nil => rfl
  | cons a t ih =>
    cases t with
    | nil => rfl
    | cons b t2 =>
      simp only [priceChanges, List.length_cons] at ih ⊢
      omega

theorem rsiGains_nonneg (prices : List ℚ) : ∀ x ∈ rsiGains prices, 0 ≤ x := by
  intro x hx
  simp only [rsiGains, List.mem_map] at hx
  obtain ⟨c, hc, rfl⟩ := hx
  by_cases h : 0 < c
  · simpa [h] using le_of_lt h
  · simp [h]

theorem rsiLosses_nonneg (prices : List ℚ) : ∀ x ∈ rsiLosses prices, 0 ≤ x := by
  intro x hx
  simp only [rsiLosses, List.mem_map] at hx
  obtain ⟨c, hc, rfl⟩ := hx
  by_cases h : 0 < c
  · simp [h]
  · simp [h, abs_nonneg]

theorem avg_gain_nonneg (prices : List ℚ) (period : ℕ) :
    0 ≤ avg_gain prices period := by
  apply div_nonneg
  · apply List.sum_nonneg
    intro x hx
    exact rsiGains_nonneg prices x (List.mem_of_mem_drop hx)
  · exact Nat.cast_nonneg period

theorem avg_loss_nonneg (prices : List ℚ) (period : ℕ) :
    0 ≤ avg_loss prices period := by
  apply div_nonneg
  · apply List.sum_nonneg
    intro x hx
    exact rsiLosses_nonneg prices x (List.mem_of_mem_drop hx)
  · exact Nat.cast_nonneg period

theorem bollinger_ordering (prices : List ℝ) (h : ¬ prices.length < 20) :
    (calculate_bollinger_bands prices 20 2).2.2 ≤
      (calculate_bollinger_bands prices 20 2).2.1 ∧
    (calculate_bollinger_bands prices 20 2).2.1 ≤
      (calculate_bollinger_bands prices 20 2).1 := by
  simp only [calculate_bollinger_bands, h, if_false]
  constructor
  · rw [sub_le_self_iff]
    positivity
  · rw [le_add_iff_nonneg_right]
    positivity

/-- C9.  On any price history of at least 50 samples the RSI lies in
`[0, 100]`, equals exactly 100 when the 14-sample average loss is 0, and
the Bollinger bands are ordered `lower ≤ middle ≤ upper` (the 2-sigma
offset is a non-negative multiple of a real square root). -/
theorem claim_C9_indicator_bounds (prices : List ℚ) (h50 : 50 ≤ prices.length) :
    0 ≤ calculate_rsi prices 14 ∧ calculate_rsi prices 14 ≤ 100 ∧
    (avg_loss prices 14 = 0 → calculate_rsi prices 14 = 100) ∧
    (calculate_bollinger_bands (prices.map (fun q : ℚ => (q : ℝ))) 20 2).2.2 ≤
      (calculate_bollinger_bands (prices.map (fun q : ℚ => (q : ℝ))) 20 2).2.1 ∧
    (calculate_bollinger_bands (prices.map (fun q : ℚ => (q : ℝ))) 20 2).2.1 ≤
      (calculate_bollinger_bands (prices.map (fun q : ℚ => (q : ℝ))) 20 2).1 := by
  have hlen1 : ¬ prices.length < 14 + 1 := by omega
  have hgl : (rsiGains prices).length = prices.length - 1 := by
    simp [rsiGains, priceChanges_length]
  have hlen2 : ¬ (rsiGains prices).length < 14 := by omega
  have hboll : ¬ (prices.map (fun q : ℚ => (q : ℝ))).length < 20 := by
    have hmap : (prices.map (fun q : ℚ => (q : ℝ))).length = prices.length :=
      List.length_map prices (fun q => (q : ℝ))
    omega
  have hbands := bollinger_ordering (prices.map (fun q : ℚ => (q : ℝ))) hboll
  by_cases hz : avg_loss prices 14 = 0
  · refine ⟨?_, ?_, fun _ => ?_, hbands.1, hbands.2⟩ <;>
      norm_num [calculate_rsi, hlen1, hlen2, hz]
  · have hpos : 0 < avg_loss prices 14 :=
      lt_of_le_of_ne (avg_loss_nonneg prices 14) (Ne.symm hz)
    have hrs : 0 ≤ avg_gain prices 14 / avg_loss prices 14 :=
      div_nonneg (avg_gain_nonneg prices 14) (le_of_lt hpos)
    have hfrac_nonneg : (0 : ℚ) ≤ 100 / (1 + avg_gain prices 14 / avg_loss prices 14) :=
      div_nonneg (by norm_num) (by linarith)
    have hfrac_le : (100 : ℚ) / (1 + avg_gain prices 14 / avg_loss prices 14) ≤ 100 :=
      div_le_self (by norm_num) (by linarith)
    refine ⟨?_, ?_, fun hz2 => absurd hz2 hz, hbands.1, hbands.2⟩ <;>
      (simp only [calculate_rsi, hlen1, hlen2, hz, if_false]; linarith)

/-- Witness for `claim_C9_indicator_bounds`: a flat 50-sample history (all
prices 1) has average loss 0 and RSI exactly 100, inside `[0, 100]`, with
ordered Bollinger bands. -/
theorem claim_C9_indicator_bounds_witness :
    50 ≤ (List.replicate 50 (1 : ℚ)).length ∧
    0 ≤ calculate_rsi (List.replicate 50 (1 : ℚ)) 14 ∧
    calculate_rsi (List.replicate 50 (1 : ℚ)) 14 ≤ 100 := by
  have h := claim_C9_indicator_bounds (List.replicate 50 (1 : ℚ)) (by simp)
  exact ⟨by simp, h.1, h.2.1⟩

/-- C10.  `get_trading_signals` returns the active-signal list truncated to
its first 10 entries, so a caller never receives more than 10 signals. -/
theorem claim_C10_at_most_ten_signals (active_signals : List (String × DTSignal)) :
    (get_trading_signals active_signals).length ≤ 10 ∧
    get_trading_signals active_signals =
      (active_signals.map (fun entry => entry.2)).take 10 := by
  refine ⟨?_, rfl⟩
  simp only [get_trading_signals, List.length_take]
  exact min_le_left 10 _

end DeploymentTradingEngine

namespace AdvancedTradingEngine

theorem momentum_confidence_pos (symbol : String) (ind : TechnicalIndicators)
    (price : ℚ) (s : StrategySignal)
    (h : momentum_trading_strategy symbol ind price = some s) : 0 < s.confidence := by
  simp only [momentum_trading_strategy] at h
  split_ifs at h <;>
    (obtain rfl := Option.some_inj.mp h; norm_num)

theorem mean_reversion_confidence_pos (symbol : String) (ind : TechnicalIndicators)
    (price : ℚ) (s : StrategySignal)
    (h : mean_reversion_strategy symbol ind price = some s) : 0 < s.confidence := by
  simp only [mean_reversion_strategy] at h
  split_ifs at h <;>
    (obtain rfl := Option.some_inj.mp h; norm_num)

theorem trend_following_confidence_pos (symbol : String) (ind : TechnicalIndicators)
    (price : ℚ) (s : StrategySignal)
    (h : trend_following_strategy symbol ind price = some s) : 0 < s.confidence := by
  simp only [trend_following_strategy] at h
  split_ifs at h <;>
    (obtain rfl := Option.some_inj.mp h; norm_num)

theorem stockCandidates_pos (symbol : String) (ind : TechnicalIndicators)
    (price : ℚ) : ∀ c ∈ stockCandidates symbol ind price, 0 < c.confidence := by
  intro c hc
  simp only [stockCandidates, List.mem_filterMap, List.mem_cons,
    List.not_mem_nil, or_false, id_eq] at hc
  obtain ⟨o, ho, hoc⟩ := hc
  rcases ho with rfl | rfl | rfl
  · exact momentum_confidence_pos symbol ind price c hoc
  · exact mean_reversion_confidence_pos symbol ind price c hoc
  · exact trend_following_confidence_pos symbol ind price c hoc

theorem foldl_pickBest_max (l : List StrategySignal) (b : StrategySignal) :
    b.confidence ≤ (List.foldl pickBest b l).confidence ∧
    ∀ c ∈ l, c.confidence ≤ (List.foldl pickBest b l).confidence := by
  induction l generalizing b with
  | nil => exact ⟨le_refl _, by simp⟩
  | cons c t ih =>
    simp only [List.foldl_cons]
    obtain ⟨h1, h2⟩ := ih (pickBest b c)
    have hb : b.confidence ≤ (pickBest b c).confidence := by
      by_cases hc : b.confidence < c.confidence
      · simp only [pickBest, if_pos hc]; exact le_of_lt hc
      · simp only [pickBest, if_neg hc]; exact le_refl _
    have hcc : c.confidence ≤ (pickBest b c).confidence := by
      by_cases hc : b.confidence < c.confidence
      · simp only [pickBest, if_pos hc]; exact le_refl _
      · simp only [pickBest, if_neg hc]; exact le_of_not_lt hc
    refine ⟨le_trans hb h1, ?_⟩
    intro d hd
    rcases List.mem_cons.mp hd with rfl | hdt
    · exact le_trans hcc h1
    · exact h2 d hdt

theorem foldl_pickBest_first (l : List StrategySignal) (b : StrategySignal) :
    ∃ l1 l2, b :: l = l1 ++ List.foldl pickBest b l :: l2 ∧
      ∀ d ∈ l1, d.confidence < (List.foldl pickBest b l).confidence := by
  induction l generalizing b with
  | nil => exact ⟨[], [], rfl, by simp⟩
  | cons c t ih =>
    simp only [List.foldl_cons]
    set r := List.foldl pickBest (pickBest b c) t with hr
    obtain ⟨l1, l2, heq, hlt⟩ := ih (pickBest b c)
    rw [← hr] at heq hlt
    by_cases hc : b.confidence < c.confidence
    · have hpc : pickBest b c = c := by simp [pickBest, hc]
      rw [hpc] at heq
      have hcr : c.confidence ≤ r.confidence := by
        have hmax := (foldl_pickBest_max t (pickBest b c)).1
        rw [← hr, hpc] at hmax
        exact hmax
      refine ⟨b :: l1, l2, ?_, ?_⟩
      · rw [List.cons_append, ← heq]
      · intro d hd
        rcases List.mem_cons.mp hd with rfl | hdl
        · exact lt_of_lt_of_le hc hcr
        · exact hlt d hdl
    · have hpc : pickBest b c = b := by simp [pickBest, hc]
      rw [hpc] at heq
      cases l1 with
      | nil =>
        simp only [List.nil_append, List.cons.injEq] at heq
        obtain ⟨hb, ht⟩ := heq
        refine ⟨[], c :: t, ?_, by simp⟩
        rw [List.nil_append, ← hb]
      | cons x l1t =>
        simp only [List.cons_append, List.cons.injEq] at heq
        obtain ⟨hx, ht⟩ := heq
        have hbr : b.confidence < r.confidence := by
          apply hlt
          rw [hx]; exact List.mem_cons_self x l1t
        refine ⟨b :: c :: l1t, l2, ?_, ?_⟩
        · rw [List.cons_append, List.cons_append, ht]
        · intro d hd
          rcases List.mem_cons.mp hd with rfl | hd2
          · exact hbr
          rcases List.mem_cons.mp hd2 with rfl | hd3
          · exact lt_of_le_of_lt (le_of_not_lt hc) hbr
          · exact hlt d (List.mem_cons_of_mem x hd3)

theorem foldArb_some (l : List (Option StrategySignal)) (b : StrategySignal) :
    l.foldl arbitrateStep (some b, b.confidence) =
      (some (List.foldl pickBest b (l.filterMap id)),
        (List.foldl pickBest b (l.filterMap id)).confidence) := by
  induction l generalizing b with
  | nil => rfl
  | cons c t ih =>
    cases c with
    | none => simpa using ih b
    | some s =>
      simp only [List.foldl_cons, List.filterMap_cons, id_eq]
      by_cases hc : b.confidence < s.confidence
      · rw [show arbitrateStep (some b, b.confidence) (some s) = (some s, s.confidence)
          from by simp [arbitrateStep, hc]]
        rw [ih s]
        simp [pickBest, hc]
      · rw [show arbitrateStep (some b, b.confidence) (some s) = (some b, b.confidence)
          from by simp [arbitrateStep, hc]]
        rw [ih b]
        simp [pickBest, hc]

theorem best_signal_eq (l : List (Option StrategySignal))
    (hpos : ∀ c ∈ l.filterMap id, 0 < c.confidence) :
    best_signal l =
      match l.filterMap id with
      | [] => none
      | c :: t => some (List.foldl pickBest c t) := by
  induction l with
  | nil => rfl
  | cons o t ih =>
    cases o with
    | none =>
      have hpos2 : ∀ c ∈ t.filterMap id, 0 < c.confidence := by
        intro c hc
        exact hpos c (by simpa using hc)
      have hstep : best_signal (none :: t) = best_signal t := rfl
      rw [hstep, ih hpos2]
      simp
    | some s =>
      have hs : 0 < s.confidence := hpos s (by simp)
      show (List.foldl arbitrateStep (arbitrateStep (none, 0) (some s)) t).1 = _
      rw [show arbitrateStep ((none : Option StrategySignal), (0 : ℚ)) (some s) =
          (some s, s.confidence) from by simp [arbitrateStep, hs]]
      rw [foldArb_some t s]
      simp

/-- C8.  Whenever `generate_stock_signals` stores a signal, that signal is
one of the candidates the three registered stock strategies produced, its
confidence is maximal among the candidates, and every candidate from an
earlier-registered strategy has strictly smaller confidence (first
registered wins ties); concretely, with momentum at confidence 0.8 and
mean reversion at 0.6 for the same symbol, the stored signal is the
momentum one. -/
theorem claim_C8_arbitration (symbol : String) (ind : TechnicalIndicators)
    (price : ℚ) (best : StrategySignal)
    (h : generate_stock_signals symbol ind price = some best) :
    (best ∈ stockCandidates symbol ind price ∧
      (∀ d ∈ stockCandidates symbol ind price, d.confidence ≤ best.confidence) ∧
      ∃ l1 l2, stockCandidates symbol ind price = l1 ++ best :: l2 ∧
        ∀ d ∈ l1, d.confidence < best.confidence) ∧
    generate_stock_signals "X" ind0 100 = some momSignal0 := by
  have hconc : generate_stock_signals "X" ind0 100 = some momSignal0 := by
    norm_num [generate_stock_signals, best_signal, arbitrateStep,
      momentum_trading_strategy, mean_reversion_strategy,
      trend_following_strategy, ind0, momSignal0, List.foldl_cons]
  refine ⟨?_, hconc⟩
  have hpos := stockCandidates_pos symbol ind price
  have heq2 : generate_stock_signals symbol ind price =
      match stockCandidates symbol ind price with
      | [] => none
      | c :: t => some (List.foldl pickBest c t) :=
    best_signal_eq
      [momentum_trading_strategy symbol ind price,
       mean_reversion_strategy symbol ind price,
       trend_following_strategy symbol ind price]
      hpos
  rw [heq2] at h
  cases hcs : stockCandidates symbol ind price with
  | nil => rw [hcs] at h; simp at h
  | cons c t =>
    rw [hcs] at h
    simp only [Option.some.injEq] at h
    subst h
    obtain ⟨l1, l2, hdecomp, hstrict⟩ := foldl_pickBest_first t c
    obtain ⟨hmax1, hmax2⟩ := foldl_pickBest_max t c
    refine ⟨?_, ?_, l1, l2, hdecomp, hstrict⟩
    · rw [hdecomp]
      exact List.mem_append_right l1 (List.mem_cons_self _ _)
    · intro d hd
      rcases List.mem_cons.mp hd with rfl | hdt
      · exact hmax1
      · exact hmax2 d hdt

/-- Witness for `claim_C8_arbitration`: on `ind0` at price 100 the stored
signal is the momentum candidate (confidence 0.8, beating mean reversion's
0.6), it is among the produced candidates, and its confidence is maximal. -/
theorem claim_C8_arbitration_witness :
    generate_stock_signals "X" ind0 100 = some momSignal0 ∧
    momSignal0 ∈ stockCandidates "X" ind0 100 := by
  have h0 : generate_stock_signals "X" ind0 100 = some momSignal0 := by
    norm_num [generate_stock_signals, best_signal, arbitrateStep,
      momentum_trading_strategy, mean_reversion_strategy,
      trend_following_strategy, ind0, momSignal0, List.foldl_cons]
  have h := claim_C8_arbitration "X" ind0 100 momSignal0 h0
  exact ⟨h.2, h.1.1⟩

end AdvancedTradingEngine
